import Mathlib

/-!
Verification of the `SubplotSequence` controller (`subplotseq.py`).

The controller keeps an ordered list of view-groups (each a list of
matplotlib `Axes`), a current index, a lazily-created instruction text, a
key-event connection id and a `shown` flag.  We embed the class shallowly:
panes are identified by natural-number ids, pane visibility is a map from
pane id to `Bool` carried next to the controller state, and every Python
method becomes a Lean function returning the new state together with the
exception it raised, if any (`none` means normal return).
-/

namespace SubplotSeq

/-- An element of a list/array passed to `add`: either a matplotlib `Axes`
object, identified by its id, or any other Python object. -/
inductive Elem where
  | axesE (id : Nat)
  | otherE (tag : Nat)
deriving DecidableEq, Repr

/-- Whether an element is a matplotlib `Axes`. -/
def Elem.isAxes : Elem → Bool
  | .axesE _ => true
  | .otherE _ => false

/-- The argument passed to `SubplotSequence.add`: a single `Axes`, a flat
list / 1-D array of objects, a rectangular 2-D array of objects (such as
the result of `Figure.subplots(n, m)`, which `np.ravel` flattens row by
row), or any other Python value. -/
inductive AddArg where
  | axes (id : Nat)
  | coll (elems : List Elem)
  | coll2d (rows : List (List Elem))
  | invalid (tag : Nat)
deriving DecidableEq, Repr

/-- The exceptions the embedded methods can raise.  `typeError` is the
spec's `InvalidArgument`, `runtimeError` is the spec's `EmptyState`;
`attributeError` is what `ax.set_visible` raises on a non-`Axes` value. -/
inductive PyError where
  | typeError
  | runtimeError
  | attributeError
deriving DecidableEq, Repr

/-- The fields of a `SubplotSequence` object set up by `__init__`:
`_sequence`, `_current`, `_cid`, `_shown`, `_instruction_text`. -/
structure SubplotSequence where
  sequence : List (List Elem)
  current : Nat
  cid : Option Nat
  shown : Bool
  instruction_text : Option String
deriving DecidableEq, Repr

/-- The controller state together with the visibility of every pane
(the part of the figure state the controller mutates). -/
structure World where
  ctrl : SubplotSequence
  vis : Nat → Bool

/-- The fixed instruction message `_navigation_text`. -/
def navigation_text : String := "Use ← → arrow keys to navigate plots"

/-- The position suffix built by `_update_navigation_text`:
`f" ({current + 1}/{length})"`. -/
def positionInfo (current len : Nat) : String :=
  " (" ++ toString (current + 1) ++ "/" ++ toString len ++ ")"

/-- A fresh controller as produced by `__init__`: empty sequence, current
index 0, no connection id, not shown, no instruction text.  The pane
visibility map `v` is whatever the figure happens to hold. -/
def init (v : Nat → Bool) : World :=
  { ctrl := { sequence := [], current := 0, cid := none, shown := false,
              instruction_text := none },
    vis := v }

/-- `add`: a single `Axes` is wrapped in a one-element group; a list or
array is flattened by `np.ravel(...).tolist()` and appended as one group
(no check on its elements or emptiness); anything else raises `TypeError`
before the sequence is touched. -/
def add (w : World) (a : AddArg) : World × Option PyError :=
  match a with
  | .axes id =>
      ({ w with ctrl := { w.ctrl with
           sequence := w.ctrl.sequence ++ [[Elem.axesE id]] } }, none)
  | .coll l =>
      ({ w with ctrl := { w.ctrl with
           sequence := w.ctrl.sequence ++ [l] } }, none)
  | .coll2d rows =>
      ({ w with ctrl := { w.ctrl with
           sequence := w.ctrl.sequence ++ [rows.flatten] } }, none)
  | .invalid _ => (w, some PyError.typeError)

/-- `_set_visible`: set each element's visibility in order; a non-`Axes`
element raises `AttributeError`, leaving the updates already made. -/
def setVisible (w : World) (g : List Elem) (b : Bool) : World × Option PyError :=
  match g with
  | [] => (w, none)
  | Elem.axesE id :: rest =>
      setVisible { w with vis := fun p => if p = id then b else w.vis p } rest b
  | Elem.otherE _ :: _ => (w, some PyError.attributeError)

/-- The `for idx, axes_list in enumerate(self._sequence)` loop shared by
`show` and `_show_current`: group `idx` is set visible iff `idx` equals
`target`.  An exception stops the loop, keeping earlier updates. -/
def setVisibleLoop (w : World) (idx : Nat) (gs : List (List Elem))
    (target : Nat) : World × Option PyError :=
  match gs with
  | [] => (w, none)
  | g :: rest =>
      match setVisible w g (idx == target) with
      | (w', none) => setVisibleLoop w' (idx + 1) rest target
      | (w', some e) => (w', some e)

/-- `_add_navigation_text`: create the instruction text (holding the fixed
message) only if it does not exist yet. -/
def add_navigation_text (w : World) : World :=
  match w.ctrl.instruction_text with
  | some _ => w
  | none => { w with ctrl := { w.ctrl with
                instruction_text := some navigation_text } }

/-- `_update_navigation_text`: if the instruction text exists, overwrite it
with the fixed message followed by the current position. -/
def update_navigation_text (w : World) : World :=
  match w.ctrl.instruction_text with
  | none => w
  | some _ => { w with ctrl := { w.ctrl with
                  instruction_text := some (navigation_text ++
                    positionInfo w.ctrl.current w.ctrl.sequence.length) } }

/-- `_show_current`: make exactly the group at `_current` visible, then
refresh the position text.  An exception from the loop propagates before
the text is touched. -/
def show_current (w : World) : World × Option PyError :=
  match setVisibleLoop w 0 w.ctrl.sequence w.ctrl.current with
  | (w', none) => (update_navigation_text w', none)
  | (w', some e) => (w', some e)

/-- `_on_key`: right/down advances when not at the last index, left/up
retreats when not at index 0, anything else is ignored.  The Python
comparison `self._current < len(self._sequence) - 1` agrees with the `Nat`
truncated subtraction here: both are false whenever the sequence is empty. -/
def on_key (w : World) (key : String) : World × Option PyError :=
  if key = "right" ∨ key = "down" then
    if w.ctrl.current < w.ctrl.sequence.length - 1 then
      show_current { w with ctrl := { w.ctrl with current := w.ctrl.current + 1 } }
    else (w, none)
  else if key = "left" ∨ key = "up" then
    if w.ctrl.current > 0 then
      show_current { w with ctrl := { w.ctrl with current := w.ctrl.current - 1 } }
    else (w, none)
  else (w, none)

/-- `show`: raise `RuntimeError` on an empty sequence; otherwise make
exactly group 0 visible, create the instruction text if needed, refresh it,
connect the key handler if not yet connected, set `_shown`, and enter the
(blocking) display loop, which has no effect on this state.  Note that
`_current` is NOT reset. -/
def show' (w : World) : World × Option PyError :=
  if w.ctrl.sequence = [] then (w, some PyError.runtimeError)
  else
    match setVisibleLoop w 0 w.ctrl.sequence 0 with
    | (w', some e) => (w', some e)
    | (w', none) =>
        let w2 := add_navigation_text w'
        let w3 := update_navigation_text w2
        let w4 := if w3.ctrl.cid = none
                  then { w3 with ctrl := { w3.ctrl with cid := some 0 } }
                  else w3
        ({ w4 with ctrl := { w4.ctrl with shown := true } }, none)

/-- Run a sequence of `add` calls, threading the state (a failed call
leaves the state untouched); the flag records whether every call
succeeded. -/
def runAdds (w : World) (args : List AddArg) : World × Bool :=
  match args with
  | [] => (w, true)
  | a :: rest =>
      match add w a with
      | (w', none) => runAdds w' rest
      | (w', some _) => let r := runAdds w' rest
                        (r.1, false)

/-- Dispatch a sequence of key events the way the single-threaded event
loop does: serially, keeping whatever state a handler left behind. -/
def runKeys (w : World) (keys : List String) : World :=
  match keys with
  | [] => w
  | k :: rest => runKeys (on_key w k).1 rest

/-- Key constants, as matched by `_on_key`. -/
def keyRight : String := "right"

/-- The logical down key. -/
def keyDown : String := "down"

/-- The logical left key. -/
def keyLeft : String := "left"

/-- The logical up key. -/
def keyUp : String := "up"

/-- Every element of every group is an `Axes` (so visibility toggling
never raises). -/
def AllDrawable (gs : List (List Elem)) : Prop :=
  ∀ g ∈ gs, ∀ e ∈ g, e.isAxes = true

/-- No element occurs in two distinct groups: each pane belongs to at most
one view-group. -/
def DisjointGroups (gs : List (List Elem)) : Prop :=
  List.Pairwise (fun g h => ∀ e ∈ g, e ∉ h) gs

/-- The claims' visibility invariant relative to a target index: a pane
belonging to group `j` is visible exactly when `j` is the target. -/
def VisibleExactly (w : World) (target : Nat) : Prop :=
  ∀ j, j < w.ctrl.sequence.length → ∀ p,
    Elem.axesE p ∈ w.ctrl.sequence.getD j [] → w.vis p = (j == target)

/-- An argument `add` accepts (anything but the `TypeError` branch). -/
def ValidArg : AddArg → Prop
  | .invalid _ => False
  | _ => True

/-- Modelled from the spec: "a single drawable pane or a non-empty
collection of drawable panes" — the spec's notion of a well-formed `add`
argument, to be compared with what the code accepts. -/
def SpecValidArg : AddArg → Prop
  | .axes _ => True
  | .coll l => l ≠ [] ∧ ∀ e ∈ l, e.isAxes = true
  | .coll2d rows => rows.flatten ≠ [] ∧ ∀ r ∈ rows, ∀ e ∈ r, e.isAxes = true
  | .invalid _ => False

/-- The view-group a valid argument is normalized to. -/
def argGroup : AddArg → List Elem
  | .axes id => [Elem.axesE id]
  | .coll l => l
  | .coll2d rows => rows.flatten
  | .invalid _ => []

/-- The visibility map produced by the enumerate/set-visible loop: group
after group, each pane of group `idx` is set to `idx == target`, later
groups overwriting earlier ones. -/
def visAfterLoop (idx target : Nat) : List (List Elem) → (Nat → Bool) → Nat → Bool
  | [], v => v
  | g :: rest, v =>
      visAfterLoop (idx + 1) target rest
        (fun p => if Elem.axesE p ∈ g then (idx == target) else v p)

instance (gs : List (List Elem)) : Decidable (AllDrawable gs) := by
  unfold AllDrawable; infer_instance

instance (gs : List (List Elem)) : Decidable (DisjointGroups gs) := by
  unfold DisjointGroups; infer_instance

instance (a : AddArg) : Decidable (ValidArg a) := by
  cases a <;> simp only [ValidArg] <;> infer_instance

instance (a : AddArg) : Decidable (SpecValidArg a) := by
  cases a <;> simp only [SpecValidArg] <;> infer_instance

/-! ### Basic lemmas about the visibility-toggling primitives -/

theorem setVisible_drawable (g : List Elem) (b : Bool) (w : World)
    (h : ∀ e ∈ g, e.isAxes = true) :
    (setVisible w g b).2 = none ∧
    (setVisible w g b).1.ctrl = w.ctrl ∧
    ∀ p, (setVisible w g b).1.vis p =
      if Elem.axesE p ∈ g then b else w.vis p := by
  induction g generalizing w with
  | nil => simp [setVisible]
  | cons e rest ih =>
    cases e with
    | axesE id =>
      have hrest : ∀ e ∈ rest, e.isAxes = true :=
        fun e he => h e (List.mem_cons_of_mem _ he)
      obtain ⟨h1, h2, h3⟩ :=
        ih { w with vis := fun p => if p = id then b else w.vis p } hrest
      refine ⟨h1, h2, fun p => ?_⟩
      rw [show setVisible w (Elem.axesE id :: rest) b =
            setVisible { w with vis := fun p => if p = id then b else w.vis p }
              rest b from rfl, h3 p]
      by_cases hp : Elem.axesE p ∈ rest
      · simp [hp, List.mem_cons]
      · by_cases hpid : p = id
        · simp [hp, hpid, List.mem_cons]
        · have hne : Elem.axesE p ≠ Elem.axesE id := by simpa using hpid
          simp [hp, hpid, List.mem_cons, hne]
    | otherE t =>
      exact absurd (h _ (List.mem_cons_self _ _)) (by simp [Elem.isAxes])

theorem setVisible_none_drawable (g : List Elem) (b : Bool) (w : World)
    (h : (setVisible w g b).2 = none) : ∀ e ∈ g, e.isAxes = true := by
  induction g generalizing w with
  | nil => simp
  | cons e rest ih =>
    cases e with
    | axesE id =>
      intro e he
      rcases List.mem_cons.1 he with rfl | he'
      · rfl
      · exact ih _ h e he'
    | otherE t => simp [setVisible] at h

theorem visAfterLoop_congr (gs : List (List Elem)) (idx target : Nat)
    (v v' : Nat → Bool) (h : ∀ p, v p = v' p) :
    ∀ p, visAfterLoop idx target gs v p = visAfterLoop idx target gs v' p := by
  induction gs generalizing idx v v' with
  | nil => exact h
  | cons g rest ih =>
    intro p
    exact ih (idx + 1) _ _
      (fun q => by by_cases hq : Elem.axesE q ∈ g <;> simp [hq, h q]) p

theorem setVisibleLoop_drawable (gs : List (List Elem)) (w : World)
    (idx target : Nat) (h : AllDrawable gs) :
    (setVisibleLoop w idx gs target).2 = none ∧
    (setVisibleLoop w idx gs target).1.ctrl = w.ctrl ∧
    ∀ p, (setVisibleLoop w idx gs target).1.vis p =
      visAfterLoop idx target gs w.vis p := by
  induction gs generalizing w idx with
  | nil => simp [setVisibleLoop, visAfterLoop]
  | cons g rest ih =>
    have hg : ∀ e ∈ g, e.isAxes = true := h g (List.mem_cons_self _ _)
    have hrest : AllDrawable rest := fun g' hg' => h g' (List.mem_cons_of_mem _ hg')
    obtain ⟨e1, e2, e3⟩ := setVisible_drawable g (idx == target) w hg
    cases hsv : setVisible w g (idx == target) with
    | mk w1 err =>
      rw [hsv] at e1 e2 e3
      simp only at e1 e2 e3
      subst e1
      obtain ⟨i1, i2, i3⟩ := ih w1 (idx + 1) hrest
      refine ⟨?_, ?_, fun p => ?_⟩
      · simpa only [setVisibleLoop, hsv] using i1
      · rw [show setVisibleLoop w idx (g :: rest) target =
              setVisibleLoop w1 (idx + 1) rest target by
            simp only [setVisibleLoop, hsv]]
        rw [i2, e2]
      · rw [show setVisibleLoop w idx (g :: rest) target =
              setVisibleLoop w1 (idx + 1) rest target by
            simp only [setVisibleLoop, hsv]]
        rw [i3 p, show visAfterLoop idx target (g :: rest) w.vis =
              visAfterLoop (idx + 1) target rest
                (fun p => if Elem.axesE p ∈ g then (idx == target) else w.vis p)
              from rfl]
        exact visAfterLoop_congr rest (idx + 1) target _ _ e3 p

theorem setVisibleLoop_none_drawable (gs : List (List Elem)) (w : World)
    (idx target : Nat) (h : (setVisibleLoop w idx gs target).2 = none) :
    AllDrawable gs := by
  induction gs generalizing w idx with
  | nil => intro g hg; simp at hg
  | cons g rest ih =>
    intro g' hg'
    cases hsv : setVisible w g (idx == target) with
    | mk w1 err =>
      cases err with
      | none =>
        have hloop : setVisibleLoop w idx (g :: rest) target =
            setVisibleLoop w1 (idx + 1) rest target := by
          simp only [setVisibleLoop, hsv]
        rw [hloop] at h
        rcases List.mem_cons.1 hg' with rfl | hmem
        · have : (setVisible w g' (idx == target)).2 = none := by rw [hsv]
          exact setVisible_none_drawable g' (idx == target) w this
        · exact ih w1 (idx + 1) h g' hmem
      | some e =>
        have hloop : setVisibleLoop w idx (g :: rest) target = (w1, some e) := by
          simp only [setVisibleLoop, hsv]
        rw [hloop] at h
        simp at h

theorem visAfterLoop_not_mem (gs : List (List Elem)) (idx target : Nat)
    (v : Nat → Bool) (p : Nat) (h : ∀ g ∈ gs, Elem.axesE p ∉ g) :
    visAfterLoop idx target gs v p = v p := by
  induction gs generalizing idx v with
  | nil => rfl
  | cons g rest ih =>
    have h1 : Elem.axesE p ∉ g := h g (List.mem_cons_self _ _)
    have h2 : ∀ g' ∈ rest, Elem.axesE p ∉ g' :=
      fun g' hg' => h g' (List.mem_cons_of_mem _ hg')
    rw [show visAfterLoop idx target (g :: rest) v =
          visAfterLoop (idx + 1) target rest
            (fun q => if Elem.axesE q ∈ g then (idx == target) else v q)
          from rfl]
    rw [ih (idx + 1) _ h2]
    simp [h1]

theorem visAfterLoop_mem (gs : List (List Elem)) (idx target : Nat)
    (v : Nat → Bool) (p : Nat) (hdisj : DisjointGroups gs)
    (j : Nat) (hj : j < gs.length) (hmem : Elem.axesE p ∈ gs.getD j []) :
    visAfterLoop idx target gs v p = ((idx + j) == target) := by
  induction gs generalizing idx v j with
  | nil => exact absurd hj (Nat.not_lt_zero j)
  | cons g rest ih =>
    rw [DisjointGroups, List.pairwise_cons] at hdisj
    obtain ⟨hhead, htail⟩ := hdisj
    rw [show visAfterLoop idx target (g :: rest) v =
          visAfterLoop (idx + 1) target rest
            (fun q => if Elem.axesE q ∈ g then (idx == target) else v q)
          from rfl]
    cases j with
    | zero =>
      have hmem0 : Elem.axesE p ∈ g := hmem
      have hnot : ∀ g' ∈ rest, Elem.axesE p ∉ g' :=
        fun g' hg' => hhead g' hg' _ hmem0
      rw [visAfterLoop_not_mem rest (idx + 1) target _ p hnot]
      simp [hmem0]
    | succ j' =>
      have hj' : j' < rest.length := by simpa using hj
      have hmem' : Elem.axesE p ∈ rest.getD j' [] := hmem
      rw [ih (idx + 1) _ htail j' hj' hmem']
      congr 1
      omega

/-! ### The navigation-text refresh `_add_navigation_text; _update_navigation_text` -/

theorem nav_text_refresh (w : World) :
    (update_navigation_text (add_navigation_text w)).ctrl.instruction_text =
      some (navigation_text ++
        positionInfo w.ctrl.current w.ctrl.sequence.length) ∧
    (update_navigation_text (add_navigation_text w)).ctrl.sequence =
      w.ctrl.sequence ∧
    (update_navigation_text (add_navigation_text w)).ctrl.current =
      w.ctrl.current ∧
    (update_navigation_text (add_navigation_text w)).ctrl.cid = w.ctrl.cid ∧
    (update_navigation_text (add_navigation_text w)).ctrl.shown =
      w.ctrl.shown ∧
    (update_navigation_text (add_navigation_text w)).vis = w.vis := by
  cases h : w.ctrl.instruction_text <;>
    simp [add_navigation_text, update_navigation_text, h]

theorem update_nav_text_some (w : World) (s : String)
    (h : w.ctrl.instruction_text = some s) :
    (update_navigation_text w).ctrl.instruction_text =
      some (navigation_text ++
        positionInfo w.ctrl.current w.ctrl.sequence.length) ∧
    (update_navigation_text w).ctrl.sequence = w.ctrl.sequence ∧
    (update_navigation_text w).ctrl.current = w.ctrl.current ∧
    (update_navigation_text w).ctrl.cid = w.ctrl.cid ∧
    (update_navigation_text w).ctrl.shown = w.ctrl.shown ∧
    (update_navigation_text w).vis = w.vis := by
  simp [update_navigation_text, h]

/-! ### Characterization of `show` and `_show_current` on drawable sequences -/

theorem show'_success (w : World) (hne : w.ctrl.sequence ≠ [])
    (hdraw : AllDrawable w.ctrl.sequence) :
    (show' w).2 = none ∧
    (show' w).1.ctrl.sequence = w.ctrl.sequence ∧
    (show' w).1.ctrl.current = w.ctrl.current ∧
    (show' w).1.ctrl.shown = true ∧
    (show' w).1.ctrl.cid.isSome = true ∧
    (show' w).1.ctrl.instruction_text =
      some (navigation_text ++
        positionInfo w.ctrl.current w.ctrl.sequence.length) ∧
    ∀ p, (show' w).1.vis p = visAfterLoop 0 0 w.ctrl.sequence w.vis p := by
  obtain ⟨e1, e2, e3⟩ := setVisibleLoop_drawable w.ctrl.sequence w 0 0 hdraw
  cases hsv : setVisibleLoop w 0 w.ctrl.sequence 0 with
  | mk w1 err =>
    rw [hsv] at e1 e2 e3
    simp only at e1 e2 e3
    subst e1
    obtain ⟨n1, n2, n3, n4, n5, n6⟩ := nav_text_refresh w1
    rw [e2] at n1 n2 n3 n4 n5
    by_cases hc : (update_navigation_text (add_navigation_text w1)).ctrl.cid = none
    · have hshow : show' w =
          ({ update_navigation_text (add_navigation_text w1) with
             ctrl := { (update_navigation_text (add_navigation_text w1)).ctrl with
                       cid := some 0, shown := true } }, none) := by
        simp only [show', if_neg hne, hsv]
        rw [if_pos hc]
      rw [hshow]
      exact ⟨rfl, n2, n3, rfl, rfl, n1, fun p => (congrFun n6 p).trans (e3 p)⟩
    · have hshow : show' w =
          ({ update_navigation_text (add_navigation_text w1) with
             ctrl := { (update_navigation_text (add_navigation_text w1)).ctrl with
                       shown := true } }, none) := by
        simp only [show', if_neg hne, hsv]
        rw [if_neg hc]
      rw [hshow]
      refine ⟨rfl, n2, n3, rfl, ?_, n1, fun p => (congrFun n6 p).trans (e3 p)⟩
      simpa [Option.isSome_iff_ne_none] using hc

theorem show'_none_facts (w : World) (h : (show' w).2 = none) :
    w.ctrl.sequence ≠ [] ∧ AllDrawable w.ctrl.sequence := by
  by_cases hne : w.ctrl.sequence = []
  · rw [show'] at h
    rw [if_pos hne] at h
    simp at h
  · refine ⟨hne, ?_⟩
    cases hsv : setVisibleLoop w 0 w.ctrl.sequence 0 with
    | mk w1 err =>
      cases err with
      | none =>
        exact setVisibleLoop_none_drawable w.ctrl.sequence w 0 0 (by rw [hsv])
      | some e =>
        rw [show'] at h
        rw [if_neg hne] at h
        rw [hsv] at h
        simp at h

theorem show_current_success (w : World) (hdraw : AllDrawable w.ctrl.sequence)
    (s : String) (htext : w.ctrl.instruction_text = some s) :
    (show_current w).2 = none ∧
    (show_current w).1.ctrl.sequence = w.ctrl.sequence ∧
    (show_current w).1.ctrl.current = w.ctrl.current ∧
    (show_current w).1.ctrl.cid = w.ctrl.cid ∧
    (show_current w).1.ctrl.shown = w.ctrl.shown ∧
    (show_current w).1.ctrl.instruction_text =
      some (navigation_text ++
        positionInfo w.ctrl.current w.ctrl.sequence.length) ∧
    ∀ p, (show_current w).1.vis p =
      visAfterLoop 0 w.ctrl.current w.ctrl.sequence w.vis p := by
  obtain ⟨e1, e2, e3⟩ :=
    setVisibleLoop_drawable w.ctrl.sequence w 0 w.ctrl.current hdraw
  cases hsv : setVisibleLoop w 0 w.ctrl.sequence w.ctrl.current with
  | mk w1 err =>
    rw [hsv] at e1 e2 e3
    simp only at e1 e2 e3
    subst e1
    have hsc : show_current w = (update_navigation_text w1, none) := by
      simp only [show_current, hsv]
    have htext1 : w1.ctrl.instruction_text = some s := by rw [e2, htext]
    obtain ⟨n1, n2, n3, n4, n5, n6⟩ := update_nav_text_some w1 s htext1
    rw [e2] at n1 n2 n3 n4 n5
    rw [hsc]
    exact ⟨rfl, n2, n3, n4, n5, n1, fun p => by simpa [n6] using e3 p⟩

/-! ### Characterization of the four `_on_key` branches -/

theorem on_key_advance (w : World) (k : String) (s : String)
    (hk : k = "right" ∨ k = "down")
    (hlt : w.ctrl.current < w.ctrl.sequence.length - 1)
    (hdraw : AllDrawable w.ctrl.sequence)
    (htext : w.ctrl.instruction_text = some s) :
    (on_key w k).2 = none ∧
    (on_key w k).1.ctrl.sequence = w.ctrl.sequence ∧
    (on_key w k).1.ctrl.current = w.ctrl.current + 1 ∧
    (on_key w k).1.ctrl.cid = w.ctrl.cid ∧
    (on_key w k).1.ctrl.shown = w.ctrl.shown ∧
    (on_key w k).1.ctrl.instruction_text =
      some (navigation_text ++
        positionInfo (w.ctrl.current + 1) w.ctrl.sequence.length) ∧
    ∀ p, (on_key w k).1.vis p =
      visAfterLoop 0 (w.ctrl.current + 1) w.ctrl.sequence w.vis p := by
  have hok : on_key w k = show_current
      { w with ctrl := { w.ctrl with current := w.ctrl.current + 1 } } := by
    rcases hk with rfl | rfl <;> simp [on_key, hlt]
  rw [hok]
  exact show_current_success
    { w with ctrl := { w.ctrl with current := w.ctrl.current + 1 } } hdraw s htext

theorem on_key_advance_noop (w : World) (k : String)
    (hk : k = "right" ∨ k = "down")
    (hge : ¬ w.ctrl.current < w.ctrl.sequence.length - 1) :
    on_key w k = (w, none) := by
  rcases hk with rfl | rfl <;> simp [on_key, hge]

theorem on_key_retreat (w : World) (k : String) (s : String)
    (hk : k = "left" ∨ k = "up")
    (hpos : 0 < w.ctrl.current)
    (hdraw : AllDrawable w.ctrl.sequence)
    (htext : w.ctrl.instruction_text = some s) :
    (on_key w k).2 = none ∧
    (on_key w k).1.ctrl.sequence = w.ctrl.sequence ∧
    (on_key w k).1.ctrl.current = w.ctrl.current - 1 ∧
    (on_key w k).1.ctrl.cid = w.ctrl.cid ∧
    (on_key w k).1.ctrl.shown = w.ctrl.shown ∧
    (on_key w k).1.ctrl.instruction_text =
      some (navigation_text ++
        positionInfo (w.ctrl.current - 1) w.ctrl.sequence.length) ∧
    ∀ p, (on_key w k).1.vis p =
      visAfterLoop 0 (w.ctrl.current - 1) w.ctrl.sequence w.vis p := by
  have hok : on_key w k = show_current
      { w with ctrl := { w.ctrl with current := w.ctrl.current - 1 } } := by
    rcases hk with rfl | rfl <;> simp [on_key, hpos]
  rw [hok]
  exact show_current_success
    { w with ctrl := { w.ctrl with current := w.ctrl.current - 1 } } hdraw s htext

theorem on_key_retreat_noop (w : World) (k : String)
    (hk : k = "left" ∨ k = "up")
    (hzero : ¬ 0 < w.ctrl.current) :
    on_key w k = (w, none) := by
  rcases hk with rfl | rfl <;> simp [on_key, hzero]

theorem on_key_other (w : World) (k : String)
    (h1 : ¬ (k = "right" ∨ k = "down"))
    (h2 : ¬ (k = "left" ∨ k = "up")) :
    on_key w k = (w, none) := by
  simp [on_key, h1, h2]

/-! ### The `add` call sequence -/

theorem runAdds_fields (args : List AddArg) (w : World) :
    (runAdds w args).1.ctrl.current = w.ctrl.current ∧
    (runAdds w args).1.ctrl.cid = w.ctrl.cid ∧
    (runAdds w args).1.ctrl.shown = w.ctrl.shown ∧
    (runAdds w args).1.ctrl.instruction_text = w.ctrl.instruction_text ∧
    (runAdds w args).1.vis = w.vis := by
  induction args generalizing w with
  | nil => exact ⟨rfl, rfl, rfl, rfl, rfl⟩
  | cons a rest ih =>
    cases a <;> simpa [runAdds, add] using ih _

theorem runAdds_sequence (args : List AddArg) (w : World)
    (hv : ∀ a ∈ args, ValidArg a) :
    (runAdds w args).2 = true ∧
    (runAdds w args).1.ctrl.sequence =
      w.ctrl.sequence ++ args.map argGroup := by
  induction args generalizing w with
  | nil => simp [runAdds]
  | cons a rest ih =>
    have ha : ValidArg a := hv a (List.mem_cons_self _ _)
    have hrest : ∀ a ∈ rest, ValidArg a :=
      fun a' ha' => hv a' (List.mem_cons_of_mem _ ha')
    cases a with
    | axes id =>
      have hstep : runAdds w (AddArg.axes id :: rest) =
          runAdds { w with ctrl := { w.ctrl with
            sequence := w.ctrl.sequence ++ [[Elem.axesE id]] } } rest := by
        simp [runAdds, add]
      obtain ⟨i1, i2⟩ := ih { w with ctrl := { w.ctrl with
        sequence := w.ctrl.sequence ++ [[Elem.axesE id]] } } hrest
      rw [hstep]
      exact ⟨i1, by rw [i2]; simp [argGroup]⟩
    | coll l =>
      have hstep : runAdds w (AddArg.coll l :: rest) =
          runAdds { w with ctrl := { w.ctrl with
            sequence := w.ctrl.sequence ++ [l] } } rest := by
        simp [runAdds, add]
      obtain ⟨i1, i2⟩ := ih { w with ctrl := { w.ctrl with
        sequence := w.ctrl.sequence ++ [l] } } hrest
      rw [hstep]
      exact ⟨i1, by rw [i2]; simp [argGroup]⟩
    | coll2d rows =>
      have hstep : runAdds w (AddArg.coll2d rows :: rest) =
          runAdds { w with ctrl := { w.ctrl with
            sequence := w.ctrl.sequence ++ [rows.flatten] } } rest := by
        simp [runAdds, add]
      obtain ⟨i1, i2⟩ := ih { w with ctrl := { w.ctrl with
        sequence := w.ctrl.sequence ++ [rows.flatten] } } hrest
      rw [hstep]
      exact ⟨i1, by rw [i2]; simp [argGroup]⟩
    | invalid t => exact absurd ha (by simp [ValidArg])

/-! ### The visibility invariant and its preservation by key events -/

theorem visibleExactly_of_vis (w' : World) (target : Nat) (w : World)
    (hseq : w'.ctrl.sequence = w.ctrl.sequence)
    (hvis : ∀ p, w'.vis p = visAfterLoop 0 target w.ctrl.sequence w.vis p)
    (hdisj : DisjointGroups w.ctrl.sequence) :
    VisibleExactly w' target := by
  intro j hj p hp
  rw [hseq] at hj hp
  rw [hvis p]
  have h := visAfterLoop_mem w.ctrl.sequence 0 target w.vis p hdisj j hj hp
  simpa using h

theorem on_key_preserves (w : World) (k : String)
    (hdraw : AllDrawable w.ctrl.sequence)
    (hdisj : DisjointGroups w.ctrl.sequence)
    (htext : w.ctrl.instruction_text.isSome = true)
    (hcur : w.ctrl.current < w.ctrl.sequence.length)
    (hvisi : VisibleExactly w w.ctrl.current) :
    (on_key w k).1.ctrl.sequence = w.ctrl.sequence ∧
    (on_key w k).1.ctrl.current < (on_key w k).1.ctrl.sequence.length ∧
    (on_key w k).1.ctrl.instruction_text.isSome = true ∧
    VisibleExactly (on_key w k).1 (on_key w k).1.ctrl.current := by
  obtain ⟨s, hs⟩ := Option.isSome_iff_exists.1 htext
  by_cases h1 : k = "right" ∨ k = "down"
  · by_cases h2 : w.ctrl.current < w.ctrl.sequence.length - 1
    · obtain ⟨a1, a2, a3, a4, a5, a6, a7⟩ := on_key_advance w k s h1 h2 hdraw hs
      refine ⟨a2, ?_, ?_, ?_⟩
      · rw [a2, a3]; omega
      · rw [a6]; rfl
      · rw [a3]
        exact visibleExactly_of_vis _ _ w a2 a7 hdisj
    · rw [on_key_advance_noop w k h1 h2]
      exact ⟨rfl, hcur, htext, hvisi⟩
  · by_cases h3 : k = "left" ∨ k = "up"
    · by_cases h4 : 0 < w.ctrl.current
      · obtain ⟨a1, a2, a3, a4, a5, a6, a7⟩ := on_key_retreat w k s h3 h4 hdraw hs
        refine ⟨a2, ?_, ?_, ?_⟩
        · rw [a2, a3]; omega
        · rw [a6]; rfl
        · rw [a3]
          exact visibleExactly_of_vis _ _ w a2 a7 hdisj
      · rw [on_key_retreat_noop w k h3 h4]
        exact ⟨rfl, hcur, htext, hvisi⟩
    · rw [on_key_other w k h1 h3]
      exact ⟨rfl, hcur, htext, hvisi⟩

theorem runKeys_preserves (ks : List String) (w : World)
    (hdraw : AllDrawable w.ctrl.sequence)
    (hdisj : DisjointGroups w.ctrl.sequence)
    (htext : w.ctrl.instruction_text.isSome = true)
    (hcur : w.ctrl.current < w.ctrl.sequence.length)
    (hvisi : VisibleExactly w w.ctrl.current) :
    (runKeys w ks).ctrl.sequence = w.ctrl.sequence ∧
    (runKeys w ks).ctrl.current < (runKeys w ks).ctrl.sequence.length ∧
    (runKeys w ks).ctrl.instruction_text.isSome = true ∧
    VisibleExactly (runKeys w ks) (runKeys w ks).ctrl.current := by
  induction ks generalizing w with
  | nil => exact ⟨rfl, hcur, htext, hvisi⟩
  | cons k rest ih =>
    obtain ⟨p1, p2, p3, p4⟩ := on_key_preserves w k hdraw hdisj htext hcur hvisi
    have hdraw' : AllDrawable (on_key w k).1.ctrl.sequence := by
      rw [p1]; exact hdraw
    have hdisj' : DisjointGroups (on_key w k).1.ctrl.sequence := by
      rw [p1]; exact hdisj
    obtain ⟨q1, q2, q3, q4⟩ := ih (on_key w k).1 hdraw' hdisj' p3 p2 p4
    exact ⟨q1.trans p1, q2, q3, q4⟩

theorem specValidArg_validArg (a : AddArg) (h : SpecValidArg a) : ValidArg a := by
  cases a
  · trivial
  · trivial
  · trivial
  · exact h.elim

/-! ### Concrete demonstration states -/

/-- An initial visibility map: every pane hidden. -/
def demoVis : Nat → Bool := fun _ => false

/-- Two single-pane groups with distinct panes. -/
def demoTwo : World := (runAdds (init demoVis) [AddArg.axes 0, AddArg.axes 1]).1

/-- Three single-pane groups with distinct panes. -/
def demoThree : World :=
  (runAdds (init demoVis) [AddArg.axes 0, AddArg.axes 1, AddArg.axes 2]).1

/-- Two groups registering the SAME pane (id 0) twice — each `add` call
succeeds, since `add` never inspects prior calls. -/
def demoDup : World := (runAdds (init demoVis) [AddArg.axes 0, AddArg.axes 0]).1

/-- `demoTwo` shown and advanced once, so its current index is 1. -/
def demoTwoAt1 : World := (on_key (show' demoTwo).1 keyRight).1

/-- `demoDup` shown and advanced once, so its current index is 1. -/
def demoDupAt1 : World := (on_key (show' demoDup).1 keyRight).1

theorem beq_succ_self_false (n : Nat) : (n == n + 1) = false := by
  rw [beq_eq_false_iff_ne]
  omega

/-! ### Claims -/

/-- C1 (amended): for every trace of successful `add` calls followed by one
successful `show` and any sequence of key events, PROVIDED no pane was
registered into two distinct view-groups, the current index stays within
`[0, length-1]` and a pane of view-group `j` is visible exactly when `j` is
the current index (so the current view-group is visible and every other
view-group is hidden).  The disjointness proviso is forced by the
duplicate-pane counterexample below. -/
theorem c1_visibility_invariant (args : List AddArg) (v : Nat → Bool)
    (ks : List String)
    (hadds : (runAdds (init v) args).2 = true)
    (hshow : (show' (runAdds (init v) args).1).2 = none)
    (hdisj : DisjointGroups (runAdds (init v) args).1.ctrl.sequence) :
    (runKeys (show' (runAdds (init v) args).1).1 ks).ctrl.current <
      (runKeys (show' (runAdds (init v) args).1).1 ks).ctrl.sequence.length ∧
    VisibleExactly (runKeys (show' (runAdds (init v) args).1).1 ks)
      (runKeys (show' (runAdds (init v) args).1).1 ks).ctrl.current := by
  obtain ⟨hne, hdraw⟩ := show'_none_facts _ hshow
  obtain ⟨s1, s2, s3, s4, s5, s6, s7⟩ :=
    show'_success (runAdds (init v) args).1 hne hdraw
  have hcur0 : (runAdds (init v) args).1.ctrl.current = 0 :=
    (runAdds_fields args (init v)).1
  have hdraw2 : AllDrawable (show' (runAdds (init v) args).1).1.ctrl.sequence := by
    rw [s2]; exact hdraw
  have hdisj2 : DisjointGroups (show' (runAdds (init v) args).1).1.ctrl.sequence := by
    rw [s2]; exact hdisj
  have htext2 :
      (show' (runAdds (init v) args).1).1.ctrl.instruction_text.isSome = true := by
    rw [s6]; rfl
  have hcur2 : (show' (runAdds (init v) args).1).1.ctrl.current <
      (show' (runAdds (init v) args).1).1.ctrl.sequence.length := by
    rw [s3, s2, hcur0]
    exact List.length_pos.2 hne
  have hvisi2 : VisibleExactly (show' (runAdds (init v) args).1).1
      (show' (runAdds (init v) args).1).1.ctrl.current := by
    rw [s3, hcur0]
    exact visibleExactly_of_vis _ 0 _ s2 s7 hdisj
  obtain ⟨r1, r2, r3, r4⟩ :=
    runKeys_preserves ks _ hdraw2 hdisj2 htext2 hcur2 hvisi2
  exact ⟨r2, r4⟩

theorem c1_visibility_invariant_witness :
    ((runAdds (init demoVis) [AddArg.axes 0, AddArg.axes 1]).2 = true) ∧
    ((show' demoTwo).2 = none) ∧
    DisjointGroups demoTwo.ctrl.sequence ∧
    ((runKeys (show' demoTwo).1 [keyRight, keyUp]).ctrl.current <
      (runKeys (show' demoTwo).1 [keyRight, keyUp]).ctrl.sequence.length ∧
    VisibleExactly (runKeys (show' demoTwo).1 [keyRight, keyUp])
      (runKeys (show' demoTwo).1 [keyRight, keyUp]).ctrl.current) :=
  ⟨by decide, by decide, by decide,
   c1_visibility_invariant [AddArg.axes 0, AddArg.axes 1] demoVis
     [keyRight, keyUp] (by decide) (by decide) (by decide)⟩

/-- C1 counterexample: both `add` calls of the trace succeed (registering
pane 0 into two view-groups) and `show` succeeds, yet afterwards the
current index is 0 and pane 0 — a pane of view-group 0 — is hidden: the
view-group at the current index is not visible, refuting the claimed
invariant for this trace. -/
theorem c1_counterexample :
    (runAdds (init demoVis) [AddArg.axes 0, AddArg.axes 0]).2 = true ∧
    (show' demoDup).2 = none ∧
    (show' demoDup).1.ctrl.current = 0 ∧
    Elem.axesE 0 ∈ (show' demoDup).1.ctrl.sequence.getD 0 [] ∧
    (show' demoDup).1.vis 0 = false ∧
    ¬ VisibleExactly (show' demoDup).1 (show' demoDup).1.ctrl.current := by
  refine ⟨by decide, by decide, by decide, by decide, by decide, ?_⟩
  intro h
  have h0 := h 0 (by decide) 0 (by decide)
  exact absurd h0 (by decide)

/-- C3: on an empty sequence, `show` raises the `EmptyState` error
(`RuntimeError`) and the whole state — pane visibilities, current index,
indicator — is returned exactly as it was. -/
theorem c3_show_empty (w : World) (h : w.ctrl.sequence = []) :
    show' w = (w, some PyError.runtimeError) := by
  rw [show', if_pos h]

theorem c3_show_empty_witness :
    show' (init (fun _ => false)) =
      (init (fun _ => false), some PyError.runtimeError) :=
  c3_show_empty (init (fun _ => false)) rfl

/-- C2 counterexample: `[otherE 5]` (a Python list holding one non-drawable
object) is neither a single drawable pane nor a collection of drawable
panes, yet `add` raises no error and appends it, modifying the sequence —
contradicting the claim that every such input fails with `InvalidArgument`
and leaves the sequence unmodified. -/
theorem c2_counterexample :
    ¬ SpecValidArg (AddArg.coll [Elem.otherE 5]) ∧
    (add (init (fun _ => false)) (AddArg.coll [Elem.otherE 5])).2 = none ∧
    (add (init (fun _ => false)) (AddArg.coll [Elem.otherE 5])).1.ctrl.sequence
      = [[Elem.otherE 5]] :=
  ⟨by decide, rfl, rfl⟩

/-- C2 (amended): `add` fails with `InvalidArgument` (`TypeError`) exactly
for inputs that are neither a single `Axes` nor a list/array: every input
of the remaining shapes — a single `Axes`, a 1-D list/array (of any
elements, possibly empty), or a 2-D array — is accepted without error, so
element types and emptiness of a collection are never checked.  On failure
the whole state, in particular the sequence, is returned unmodified. -/
theorem c2_add_invalid (w : World) (t : Nat) (l : List Elem) (id : Nat)
    (rows : List (List Elem)) :
    add w (AddArg.invalid t) = (w, some PyError.typeError) ∧
    (add w (AddArg.invalid t)).1.ctrl.sequence = w.ctrl.sequence ∧
    (add w (AddArg.axes id)).2 = none ∧
    (add w (AddArg.coll l)).2 = none ∧
    (add w (AddArg.coll2d rows)).2 = none :=
  ⟨rfl, rfl, rfl, rfl, rfl⟩

/-- C9: for every sequence of valid drawable-or-collection `add` calls on a
fresh controller, every call succeeds, the resulting sequence is exactly
the normalized (flattened) view-group of each argument in call order, and
its length equals the number of calls. -/
theorem c9_add_normalization (v : Nat → Bool) (args : List AddArg)
    (hv : ∀ a ∈ args, SpecValidArg a) :
    (runAdds (init v) args).2 = true ∧
    (runAdds (init v) args).1.ctrl.sequence = args.map argGroup ∧
    (runAdds (init v) args).1.ctrl.sequence.length = args.length := by
  have hv' : ∀ a ∈ args, ValidArg a := fun a ha => specValidArg_validArg a (hv a ha)
  obtain ⟨h1, h2⟩ := runAdds_sequence args (init v) hv'
  have h2' : (runAdds (init v) args).1.ctrl.sequence = args.map argGroup := by
    simpa [init] using h2
  exact ⟨h1, h2', by rw [h2']; simp⟩

theorem c9_add_normalization_witness :
    (∀ a ∈ [AddArg.axes 0, AddArg.coll [Elem.axesE 1],
            AddArg.coll2d [[Elem.axesE 2, Elem.axesE 3],
                           [Elem.axesE 4, Elem.axesE 5]]], SpecValidArg a) ∧
    (runAdds (init (fun _ => false))
        [AddArg.axes 0, AddArg.coll [Elem.axesE 1],
         AddArg.coll2d [[Elem.axesE 2, Elem.axesE 3],
                        [Elem.axesE 4, Elem.axesE 5]]]).2 = true ∧
    (runAdds (init (fun _ => false))
        [AddArg.axes 0, AddArg.coll [Elem.axesE 1],
         AddArg.coll2d [[Elem.axesE 2, Elem.axesE 3],
                        [Elem.axesE 4, Elem.axesE 5]]]).1.ctrl.sequence =
      [AddArg.axes 0, AddArg.coll [Elem.axesE 1],
       AddArg.coll2d [[Elem.axesE 2, Elem.axesE 3],
                      [Elem.axesE 4, Elem.axesE 5]]].map argGroup ∧
    (runAdds (init (fun _ => false))
        [AddArg.axes 0, AddArg.coll [Elem.axesE 1],
         AddArg.coll2d [[Elem.axesE 2, Elem.axesE 3],
                        [Elem.axesE 4, Elem.axesE 5]]]).1.ctrl.sequence.length =
      [AddArg.axes 0, AddArg.coll [Elem.axesE 1],
       AddArg.coll2d [[Elem.axesE 2, Elem.axesE 3],
                      [Elem.axesE 4, Elem.axesE 5]]].length := by
  refine ⟨by decide, ?_⟩
  exact c9_add_normalization (fun _ => false) _ (by decide)

/-- C4 counterexample: a controller navigated to current index 1 (of 2) and
shown a second time: `show` succeeds but sets the indicator to "(2/2)" —
the retained current position — not to the claimed "1 / total" = "(1/2)". -/
theorem c4_counterexample :
    demoTwoAt1.ctrl.sequence.length = 2 ∧
    demoTwoAt1.ctrl.current = 1 ∧
    (show' demoTwoAt1).2 = none ∧
    (show' demoTwoAt1).1.ctrl.instruction_text =
      some (navigation_text ++ " (2/2)") ∧
    (show' demoTwoAt1).1.ctrl.instruction_text ≠
      some (navigation_text ++ " (1/2)") := by
  refine ⟨by decide, by decide, by decide, by decide, by decide⟩

/-- C4 (amended): for every controller with a non-empty sequence of
pairwise-disjoint drawable view-groups, a successful `show` makes the panes
of view-group 0 visible and those of every other view-group hidden, leaves
the indicator created with text equal to the fixed message plus
"((current)+1/N)" — which is "1/N" whenever the controller has not been
navigated, in particular on the first `show` — and leaves a key handler
registered.  (`show` does not reset the current index, so after prior
navigation the indicator shows the retained index; the disjointness
proviso is forced by the duplicate-pane behaviour.) -/
theorem c4_show_display (w : World)
    (hne : w.ctrl.sequence ≠ [])
    (hdraw : AllDrawable w.ctrl.sequence)
    (hdisj : DisjointGroups w.ctrl.sequence) :
    (show' w).2 = none ∧
    VisibleExactly (show' w).1 0 ∧
    (show' w).1.ctrl.instruction_text =
      some (navigation_text ++
        positionInfo w.ctrl.current w.ctrl.sequence.length) ∧
    (show' w).1.ctrl.cid.isSome = true ∧
    (show' w).1.ctrl.shown = true ∧
    (show' w).1.ctrl.current = w.ctrl.current := by
  obtain ⟨s1, s2, s3, s4, s5, s6, s7⟩ := show'_success w hne hdraw
  exact ⟨s1, visibleExactly_of_vis _ 0 w s2 s7 hdisj, s6, s5, s4, s3⟩

theorem c4_show_display_witness :
    (demoTwo.ctrl.sequence ≠ [] ∧ AllDrawable demoTwo.ctrl.sequence ∧
     DisjointGroups demoTwo.ctrl.sequence) ∧
    ((show' demoTwo).2 = none ∧
     VisibleExactly (show' demoTwo).1 0 ∧
     (show' demoTwo).1.ctrl.instruction_text =
       some (navigation_text ++
         positionInfo demoTwo.ctrl.current demoTwo.ctrl.sequence.length) ∧
     (show' demoTwo).1.ctrl.cid.isSome = true ∧
     (show' demoTwo).1.ctrl.shown = true ∧
     (show' demoTwo).1.ctrl.current = demoTwo.ctrl.current) :=
  ⟨⟨by decide, by decide, by decide⟩,
   c4_show_display demoTwo (by decide) (by decide) (by decide)⟩

/-- C5 (amended): on a shown controller whose view-groups are pairwise
disjoint (a proviso forced by the duplicate-pane behaviour), an advance key with current index
below the last one reports no error, increments the index, hides the panes
of the previous group, shows the panes of the new current group and
refreshes the indicator; an advance key at the last index returns the
state completely unchanged. -/
theorem c5_advance_event (w : World) (k : String)
    (hshown : w.ctrl.shown = true)
    (htext : w.ctrl.instruction_text.isSome = true)
    (hdraw : AllDrawable w.ctrl.sequence)
    (hdisj : DisjointGroups w.ctrl.sequence)
    (hk : k = keyRight ∨ k = keyDown) :
    (w.ctrl.current < w.ctrl.sequence.length - 1 →
      (on_key w k).2 = none ∧
      (on_key w k).1.ctrl.current = w.ctrl.current + 1 ∧
      (∀ p, Elem.axesE p ∈ w.ctrl.sequence.getD w.ctrl.current [] →
        (on_key w k).1.vis p = false) ∧
      (∀ p, Elem.axesE p ∈ w.ctrl.sequence.getD (w.ctrl.current + 1) [] →
        (on_key w k).1.vis p = true) ∧
      (on_key w k).1.ctrl.instruction_text =
        some (navigation_text ++
          positionInfo (w.ctrl.current + 1) w.ctrl.sequence.length)) ∧
    (w.ctrl.current = w.ctrl.sequence.length - 1 →
      on_key w k = (w, none)) := by
  obtain ⟨s, hs⟩ := Option.isSome_iff_exists.1 htext
  constructor
  · intro hlt
    obtain ⟨a1, a2, a3, a4, a5, a6, a7⟩ := on_key_advance w k s hk hlt hdraw hs
    have hve : VisibleExactly (on_key w k).1 (w.ctrl.current + 1) :=
      visibleExactly_of_vis _ _ w a2 a7 hdisj
    refine ⟨a1, a3, ?_, ?_, a6⟩
    · intro p hp
      have h := hve w.ctrl.current (by rw [a2]; omega) p (by rw [a2]; exact hp)
      rw [h]
      exact beq_succ_self_false _
    · intro p hp
      have h := hve (w.ctrl.current + 1) (by rw [a2]; omega) p (by rw [a2]; exact hp)
      rw [h]
      simp
  · intro heq
    exact on_key_advance_noop w k hk (by omega)

theorem c5_advance_event_witness :
    ((show' demoTwo).1.ctrl.shown = true ∧
     (show' demoTwo).1.ctrl.instruction_text.isSome = true ∧
     AllDrawable (show' demoTwo).1.ctrl.sequence ∧
     DisjointGroups (show' demoTwo).1.ctrl.sequence) ∧
    (((show' demoTwo).1.ctrl.current <
        (show' demoTwo).1.ctrl.sequence.length - 1 →
      (on_key (show' demoTwo).1 keyRight).2 = none ∧
      (on_key (show' demoTwo).1 keyRight).1.ctrl.current =
        (show' demoTwo).1.ctrl.current + 1 ∧
      (∀ p, Elem.axesE p ∈
          (show' demoTwo).1.ctrl.sequence.getD (show' demoTwo).1.ctrl.current [] →
        (on_key (show' demoTwo).1 keyRight).1.vis p = false) ∧
      (∀ p, Elem.axesE p ∈
          (show' demoTwo).1.ctrl.sequence.getD
            ((show' demoTwo).1.ctrl.current + 1) [] →
        (on_key (show' demoTwo).1 keyRight).1.vis p = true) ∧
      (on_key (show' demoTwo).1 keyRight).1.ctrl.instruction_text =
        some (navigation_text ++
          positionInfo ((show' demoTwo).1.ctrl.current + 1)
            (show' demoTwo).1.ctrl.sequence.length)) ∧
     ((show' demoTwo).1.ctrl.current =
        (show' demoTwo).1.ctrl.sequence.length - 1 →
      on_key (show' demoTwo).1 keyRight = ((show' demoTwo).1, none))) :=
  ⟨⟨by decide, by decide, by decide, by decide⟩,
   c5_advance_event (show' demoTwo).1 keyRight (by decide) (by decide)
     (by decide) (by decide) (Or.inl rfl)⟩

/-- C5 counterexample: pane 0 was registered into both view-groups of
`demoDup` by two successful `add` calls; after `show` (current index 0) an
advance event moves the index to 1, but pane 0 — a pane of the previous
view-group 0 — ends up VISIBLE, because the visibility loop processes
groups in ascending order and the last group containing the pane wins; the
claim's "hides view-group i" fails on this shown controller. -/
theorem c5_counterexample :
    (show' demoDup).1.ctrl.shown = true ∧
    (show' demoDup).1.ctrl.current = 0 ∧
    (show' demoDup).1.ctrl.sequence = [[Elem.axesE 0], [Elem.axesE 0]] ∧
    (on_key (show' demoDup).1 keyRight).2 = none ∧
    (on_key (show' demoDup).1 keyRight).1.ctrl.current = 1 ∧
    (on_key (show' demoDup).1 keyRight).1.vis 0 = true := by
  refine ⟨by decide, by decide, by decide, by decide, by decide, by decide⟩

/-- C6 (amended): on a shown controller whose view-groups are pairwise
disjoint (a proviso forced by the duplicate-pane behaviour), a retreat key with positive
current index reports no error, decrements the index, hides the panes of
the previous group, shows the panes of the new current group and refreshes
the indicator; a retreat key at index 0 returns the state completely
unchanged; and any key other than the four navigation keys returns the
state completely unchanged. -/
theorem c6_retreat_event (w : World) (k : String)
    (hshown : w.ctrl.shown = true)
    (htext : w.ctrl.instruction_text.isSome = true)
    (hdraw : AllDrawable w.ctrl.sequence)
    (hdisj : DisjointGroups w.ctrl.sequence)
    (hcur : w.ctrl.current < w.ctrl.sequence.length)
    (hk : k = keyLeft ∨ k = keyUp) :
    (0 < w.ctrl.current →
      (on_key w k).2 = none ∧
      (on_key w k).1.ctrl.current = w.ctrl.current - 1 ∧
      (∀ p, Elem.axesE p ∈ w.ctrl.sequence.getD w.ctrl.current [] →
        (on_key w k).1.vis p = false) ∧
      (∀ p, Elem.axesE p ∈ w.ctrl.sequence.getD (w.ctrl.current - 1) [] →
        (on_key w k).1.vis p = true) ∧
      (on_key w k).1.ctrl.instruction_text =
        some (navigation_text ++
          positionInfo (w.ctrl.current - 1) w.ctrl.sequence.length)) ∧
    (w.ctrl.current = 0 → on_key w k = (w, none)) ∧
    (∀ k', ¬ (k' = keyRight ∨ k' = keyDown ∨ k' = keyLeft ∨ k' = keyUp) →
      on_key w k' = (w, none)) := by
  obtain ⟨s, hs⟩ := Option.isSome_iff_exists.1 htext
  refine ⟨?_, ?_, ?_⟩
  · intro hpos
    obtain ⟨a1, a2, a3, a4, a5, a6, a7⟩ := on_key_retreat w k s hk hpos hdraw hs
    have hve : VisibleExactly (on_key w k).1 (w.ctrl.current - 1) :=
      visibleExactly_of_vis _ _ w a2 a7 hdisj
    refine ⟨a1, a3, ?_, ?_, a6⟩
    · intro p hp
      have h := hve w.ctrl.current (by rw [a2]; omega) p (by rw [a2]; exact hp)
      rw [h, beq_eq_false_iff_ne]
      omega
    · intro p hp
      have h := hve (w.ctrl.current - 1) (by rw [a2]; omega) p (by rw [a2]; exact hp)
      rw [h]
      simp
  · intro heq
    exact on_key_retreat_noop w k hk (by omega)
  · intro k' hk'
    refine on_key_other w k' ?_ ?_
    · intro h
      rcases h with h | h
      · exact hk' (Or.inl h)
      · exact hk' (Or.inr (Or.inl h))
    · intro h
      rcases h with h | h
      · exact hk' (Or.inr (Or.inr (Or.inl h)))
      · exact hk' (Or.inr (Or.inr (Or.inr h)))

theorem c6_retreat_event_witness :
    (demoTwoAt1.ctrl.shown = true ∧
     demoTwoAt1.ctrl.instruction_text.isSome = true ∧
     AllDrawable demoTwoAt1.ctrl.sequence ∧
     DisjointGroups demoTwoAt1.ctrl.sequence ∧
     demoTwoAt1.ctrl.current < demoTwoAt1.ctrl.sequence.length) ∧
    ((0 < demoTwoAt1.ctrl.current →
      (on_key demoTwoAt1 keyLeft).2 = none ∧
      (on_key demoTwoAt1 keyLeft).1.ctrl.current =
        demoTwoAt1.ctrl.current - 1 ∧
      (∀ p, Elem.axesE p ∈
          demoTwoAt1.ctrl.sequence.getD demoTwoAt1.ctrl.current [] →
        (on_key demoTwoAt1 keyLeft).1.vis p = false) ∧
      (∀ p, Elem.axesE p ∈
          demoTwoAt1.ctrl.sequence.getD (demoTwoAt1.ctrl.current - 1) [] →
        (on_key demoTwoAt1 keyLeft).1.vis p = true) ∧
      (on_key demoTwoAt1 keyLeft).1.ctrl.instruction_text =
        some (navigation_text ++
          positionInfo (demoTwoAt1.ctrl.current - 1)
            demoTwoAt1.ctrl.sequence.length)) ∧
     (demoTwoAt1.ctrl.current = 0 →
       on_key demoTwoAt1 keyLeft = (demoTwoAt1, none)) ∧
     (∀ k', ¬ (k' = keyRight ∨ k' = keyDown ∨ k' = keyLeft ∨ k' = keyUp) →
       on_key demoTwoAt1 k' = (demoTwoAt1, none))) :=
  ⟨⟨by decide, by decide, by decide, by decide, by decide⟩,
   c6_retreat_event demoTwoAt1 keyLeft (by decide) (by decide) (by decide)
     (by decide) (by decide) (Or.inl rfl)⟩

/-- C6 counterexample: pane 0 was registered into both view-groups of
`demoDup`; with current index 1 a retreat event moves the index to 0, but
pane 0 — a pane of the new current view-group 0 — ends up HIDDEN (the
later group's toggle overwrote it); the claim's "shows view-group i-1"
fails on this shown controller. -/
theorem c6_counterexample :
    demoDupAt1.ctrl.shown = true ∧
    demoDupAt1.ctrl.current = 1 ∧
    demoDupAt1.ctrl.sequence = [[Elem.axesE 0], [Elem.axesE 0]] ∧
    (on_key demoDupAt1 keyLeft).2 = none ∧
    (on_key demoDupAt1 keyLeft).1.ctrl.current = 0 ∧
    (on_key demoDupAt1 keyLeft).1.vis 0 = false := by
  refine ⟨by decide, by decide, by decide, by decide, by decide, by decide⟩

/-- C7: after a successful `show` (on a non-empty drawable sequence) and
after any key event that actually moved the current index (a successful
navigation event, possible only once the indicator exists), the indicator
text equals the fixed instruction string concatenated with " (i+1/N)",
where `i` is the (new) current index and `N` the sequence length. -/
theorem c7_indicator_formula (w : World) (k : String) :
    (w.ctrl.sequence ≠ [] → AllDrawable w.ctrl.sequence →
      (show' w).1.ctrl.instruction_text =
        some (navigation_text ++
          positionInfo (show' w).1.ctrl.current
            (show' w).1.ctrl.sequence.length)) ∧
    (AllDrawable w.ctrl.sequence → w.ctrl.instruction_text.isSome = true →
      (on_key w k).1.ctrl.current ≠ w.ctrl.current →
      (on_key w k).1.ctrl.instruction_text =
        some (navigation_text ++
          positionInfo (on_key w k).1.ctrl.current
            (on_key w k).1.ctrl.sequence.length)) := by
  constructor
  · intro hne hdraw
    obtain ⟨s1, s2, s3, s4, s5, s6, s7⟩ := show'_success w hne hdraw
    rw [s6, s3, s2]
  · intro hdraw htext hmove
    obtain ⟨s, hs⟩ := Option.isSome_iff_exists.1 htext
    by_cases h1 : k = "right" ∨ k = "down"
    · by_cases h2 : w.ctrl.current < w.ctrl.sequence.length - 1
      · obtain ⟨a1, a2, a3, a4, a5, a6, a7⟩ := on_key_advance w k s h1 h2 hdraw hs
        rw [a6, a3, a2]
      · rw [on_key_advance_noop w k h1 h2] at hmove
        exact absurd rfl hmove
    · by_cases h3 : k = "left" ∨ k = "up"
      · by_cases h4 : 0 < w.ctrl.current
        · obtain ⟨a1, a2, a3, a4, a5, a6, a7⟩ := on_key_retreat w k s h3 h4 hdraw hs
          rw [a6, a3, a2]
        · rw [on_key_retreat_noop w k h3 h4] at hmove
          exact absurd rfl hmove
      · rw [on_key_other w k h1 h3] at hmove
        exact absurd rfl hmove

theorem c7_indicator_formula_witness :
    (demoTwo.ctrl.sequence ≠ [] ∧ AllDrawable demoTwo.ctrl.sequence ∧
     (show' demoTwo).1.ctrl.instruction_text.isSome = true ∧
     (on_key (show' demoTwo).1 keyRight).1.ctrl.current ≠
       (show' demoTwo).1.ctrl.current) ∧
    ((show' demoTwo).1.ctrl.instruction_text =
      some (navigation_text ++
        positionInfo (show' demoTwo).1.ctrl.current
          (show' demoTwo).1.ctrl.sequence.length)) ∧
    ((on_key (show' demoTwo).1 keyRight).1.ctrl.instruction_text =
      some (navigation_text ++
        positionInfo (on_key (show' demoTwo).1 keyRight).1.ctrl.current
          (on_key (show' demoTwo).1 keyRight).1.ctrl.sequence.length)) :=
  ⟨⟨by decide, by decide, by decide, by decide⟩,
   (c7_indicator_formula demoTwo keyRight).1 (by decide) (by decide),
   (c7_indicator_formula (show' demoTwo).1 keyRight).2 (by decide) (by decide)
     (by decide)⟩

/-- C8: the three-group scenario.  After adding 3 single-pane groups and
calling `show`, group 0 is visible, the others hidden, and the indicator
reads "(1/3)"; after two advance events group 2 is visible with "(3/3)"; a
further advance leaves the whole state unchanged; a retreat then makes
group 1 visible with "(2/3)". -/
theorem c8_three_group_scenario :
    ((show' demoThree).1.vis 0 = true ∧
     (show' demoThree).1.vis 1 = false ∧
     (show' demoThree).1.vis 2 = false ∧
     (show' demoThree).1.ctrl.current = 0 ∧
     (show' demoThree).1.ctrl.instruction_text =
       some (navigation_text ++ " (1/3)")) ∧
    ((runKeys (show' demoThree).1 [keyRight, keyRight]).vis 2 = true ∧
     (runKeys (show' demoThree).1 [keyRight, keyRight]).vis 0 = false ∧
     (runKeys (show' demoThree).1 [keyRight, keyRight]).vis 1 = false ∧
     (runKeys (show' demoThree).1 [keyRight, keyRight]).ctrl.current = 2 ∧
     (runKeys (show' demoThree).1 [keyRight, keyRight]).ctrl.instruction_text =
       some (navigation_text ++ " (3/3)")) ∧
    (on_key (runKeys (show' demoThree).1 [keyRight, keyRight]) keyRight =
      (runKeys (show' demoThree).1 [keyRight, keyRight], none)) ∧
    ((on_key (runKeys (show' demoThree).1 [keyRight, keyRight]) keyLeft).1.vis 1
        = true ∧
     (on_key (runKeys (show' demoThree).1 [keyRight, keyRight]) keyLeft).1.vis 0
        = false ∧
     (on_key (runKeys (show' demoThree).1 [keyRight, keyRight]) keyLeft).1.vis 2
        = false ∧
     (on_key (runKeys (show' demoThree).1 [keyRight, keyRight]) keyLeft).1.ctrl.current
        = 1 ∧
     (on_key (runKeys (show' demoThree).1 [keyRight, keyRight]) keyLeft).1.ctrl.instruction_text
        = some (navigation_text ++ " (2/3)")) := by
  refine ⟨⟨by decide, by decide, by decide, by decide, by decide⟩,
    ⟨by decide, by decide, by decide, by decide, by decide⟩, rfl,
    ⟨by decide, by decide, by decide, by decide, by decide⟩⟩

/-- C10 counterexample: on a reachable duplicate-pane controller (pane 0
registered into both view-groups by two successful `add` calls) navigated
to current index 1, a second `show` succeeds and keeps the index at 1, but
pane 0 — a pane of view-group 0 — ends up HIDDEN (the loop's later toggle
for group 1 overwrote the earlier one on the shared pane), refuting "makes
only the view-group at index 0 visible". -/
theorem c10_counterexample :
    demoDupAt1.ctrl.shown = true ∧
    demoDupAt1.ctrl.current = 1 ∧
    demoDupAt1.ctrl.sequence = [[Elem.axesE 0], [Elem.axesE 0]] ∧
    (show' demoDupAt1).2 = none ∧
    (show' demoDupAt1).1.ctrl.current = 1 ∧
    Elem.axesE 0 ∈ (show' demoDupAt1).1.ctrl.sequence.getD 0 [] ∧
    (show' demoDupAt1).1.vis 0 = false := by
  refine ⟨by decide, by decide, by decide, by decide, by decide, by decide,
    by decide⟩

/-- C10 (amended): calling `show` again on a shown controller whose
pairwise-disjoint drawable view-groups were navigated to a positive current
index `i < N` (the disjointness proviso is forced by the duplicate-pane
counterexample above) makes exactly view-group 0 visible but keeps the
current index: the indicator is refreshed to "(i+1/N)" while group 0 is the
one displayed (so the visible group and the current index disagree), and a
subsequent retreat proceeds from `i`, moving to `i-1` and displaying group
`i-1`. -/
theorem c10_second_show (w : World)
    (hshown : w.ctrl.shown = true)
    (hpos : 0 < w.ctrl.current)
    (hlt : w.ctrl.current < w.ctrl.sequence.length)
    (hdraw : AllDrawable w.ctrl.sequence)
    (hdisj : DisjointGroups w.ctrl.sequence) :
    (show' w).2 = none ∧
    VisibleExactly (show' w).1 0 ∧
    (show' w).1.ctrl.current = w.ctrl.current ∧
    (show' w).1.ctrl.instruction_text =
      some (navigation_text ++
        positionInfo w.ctrl.current w.ctrl.sequence.length) ∧
    (on_key (show' w).1 keyLeft).1.ctrl.current = w.ctrl.current - 1 ∧
    VisibleExactly (on_key (show' w).1 keyLeft).1 (w.ctrl.current - 1) := by
  have hne : w.ctrl.sequence ≠ [] := by
    intro h
    rw [h] at hlt
    simp at hlt
  obtain ⟨s1, s2, s3, s4, s5, s6, s7⟩ := show'_success w hne hdraw
  have hdraw' : AllDrawable (show' w).1.ctrl.sequence := by rw [s2]; exact hdraw
  have hdisj' : DisjointGroups (show' w).1.ctrl.sequence := by rw [s2]; exact hdisj
  have hpos' : 0 < (show' w).1.ctrl.current := by rw [s3]; exact hpos
  obtain ⟨a1, a2, a3, a4, a5, a6, a7⟩ := on_key_retreat (show' w).1 keyLeft
    (navigation_text ++ positionInfo w.ctrl.current w.ctrl.sequence.length)
    (Or.inl rfl) hpos' hdraw' s6
  refine ⟨s1, visibleExactly_of_vis _ 0 w s2 s7 hdisj, s3, s6, ?_, ?_⟩
  · rw [a3, s3]
  · have hve := visibleExactly_of_vis (on_key (show' w).1 keyLeft).1
      ((show' w).1.ctrl.current - 1) (show' w).1 a2 a7 hdisj'
    rw [s3] at hve
    exact hve

theorem c10_second_show_witness :
    (demoTwoAt1.ctrl.shown = true ∧ 0 < demoTwoAt1.ctrl.current ∧
     demoTwoAt1.ctrl.current < demoTwoAt1.ctrl.sequence.length ∧
     AllDrawable demoTwoAt1.ctrl.sequence ∧
     DisjointGroups demoTwoAt1.ctrl.sequence) ∧
    ((show' demoTwoAt1).2 = none ∧
     VisibleExactly (show' demoTwoAt1).1 0 ∧
     (show' demoTwoAt1).1.ctrl.current = demoTwoAt1.ctrl.current ∧
     (show' demoTwoAt1).1.ctrl.instruction_text =
       some (navigation_text ++
         positionInfo demoTwoAt1.ctrl.current demoTwoAt1.ctrl.sequence.length) ∧
     (on_key (show' demoTwoAt1).1 keyLeft).1.ctrl.current =
       demoTwoAt1.ctrl.current - 1 ∧
     VisibleExactly (on_key (show' demoTwoAt1).1 keyLeft).1
       (demoTwoAt1.ctrl.current - 1)) :=
  ⟨⟨by decide, by decide, by decide, by decide, by decide⟩,
   c10_second_show demoTwoAt1 (by decide) (by decide) (by decide) (by decide)
     (by decide)⟩

end SubplotSeq
